import Mathlib

/-!
Shallow embedding of the core of the `laoyang75/lianghua` quantitative
backtesting repository: the label-ranking engine
(`backend/app/services/label_calculator.py`) and the backtest engine
(`backend/app/engine/backtest_engine.py`).

Python floats are modelled as `ℚ` (exact arithmetic, no rounding); Python
ints as `ℤ`/`ℕ`.  Fallible code is modelled with `Except String`.  Each
definition carries a doc comment naming the Python function and lines it
embeds.
-/

namespace Lianghua

/-- Kernel-reducible addition on `ℚ`.  The built-in rational operations
of core Lean do not reduce inside the kernel; these wrappers, written
through `Rat.divInt`, do, so every embedded definition can be evaluated
by `decide` on concrete inputs.  The `_eq` lemmas below identify them
with the field operations of `ℚ`. -/
def qadd (a b : ℚ) : ℚ := Rat.divInt (a.num * b.den + b.num * a.den) (a.den * b.den)

/-- Kernel-reducible subtraction on `ℚ`. -/
def qsub (a b : ℚ) : ℚ := Rat.divInt (a.num * b.den - b.num * a.den) (a.den * b.den)

/-- Kernel-reducible multiplication on `ℚ`. -/
def qmul (a b : ℚ) : ℚ := Rat.divInt (a.num * b.num) (a.den * b.den)

/-- Kernel-reducible division on `ℚ`; division by zero yields zero, the
convention of `ℚ` itself. -/
def qdiv (a b : ℚ) : ℚ := Rat.divInt (a.num * b.den) (a.den * b.num)

/-- Kernel-reducible sum of a list of rationals. -/
def qsum (xs : List ℚ) : ℚ := xs.foldr qadd 0

theorem qadd_eq (a b : ℚ) : qadd a b = a + b := by
  have ha : ((a.den : ℚ)) ≠ 0 := Nat.cast_ne_zero.mpr a.den_nz
  have hb : ((b.den : ℚ)) ≠ 0 := Nat.cast_ne_zero.mpr b.den_nz
  rw [qadd, Rat.divInt_eq_div]
  push_cast
  conv_rhs => rw [← Rat.num_div_den a, ← Rat.num_div_den b]
  field_simp

theorem qsub_eq (a b : ℚ) : qsub a b = a - b := by
  have ha : ((a.den : ℚ)) ≠ 0 := Nat.cast_ne_zero.mpr a.den_nz
  have hb : ((b.den : ℚ)) ≠ 0 := Nat.cast_ne_zero.mpr b.den_nz
  rw [qsub, Rat.divInt_eq_div]
  push_cast
  conv_rhs => rw [← Rat.num_div_den a, ← Rat.num_div_den b]
  field_simp
  ring

theorem qmul_eq (a b : ℚ) : qmul a b = a * b := by
  have ha : ((a.den : ℚ)) ≠ 0 := Nat.cast_ne_zero.mpr a.den_nz
  have hb : ((b.den : ℚ)) ≠ 0 := Nat.cast_ne_zero.mpr b.den_nz
  rw [qmul, Rat.divInt_eq_div]
  push_cast
  conv_rhs => rw [← Rat.num_div_den a, ← Rat.num_div_den b]
  field_simp

theorem qdiv_eq (a b : ℚ) : qdiv a b = a / b := by
  rcases eq_or_ne b 0 with hb0 | hb0
  · subst hb0
    show Rat.divInt (a.num * (0:ℚ).den) (a.den * (0:ℚ).num) = a / 0
    norm_num
  · have ha : ((a.den : ℚ)) ≠ 0 := Nat.cast_ne_zero.mpr a.den_nz
    have hbd : ((b.den : ℚ)) ≠ 0 := Nat.cast_ne_zero.mpr b.den_nz
    have hbn : ((b.num : ℚ)) ≠ 0 := by exact_mod_cast Rat.num_ne_zero.mpr hb0
    rw [qdiv, Rat.divInt_eq_div]
    push_cast
    conv_rhs => rw [← Rat.num_div_den a, ← Rat.num_div_den b]
    field_simp

theorem qsum_eq (xs : List ℚ) : qsum xs = xs.sum := by
  induction xs with
  | nil => rfl
  | cons a t ih => rw [qsum, List.foldr_cons, ← qsum, ih, qadd_eq, List.sum_cons]

/-- Python `int(q)` applied to a float: truncation toward zero. -/
def pytrunc (q : ℚ) : ℤ := if 0 ≤ q then ⌊q⌋ else -⌊-q⌋

/-- Arithmetic mean of a list of rationals, as polars `Series.mean`
computes it for a non-empty series; the empty case yields `0`, which the
embedding uses interchangeably with the null that polars returns there
(every use below guards with a Python-truthiness test under which the
float `0.0` and `None` behave identically). -/
def meanQ (xs : List ℚ) : ℚ := qdiv (qsum xs) ((xs.length : ℕ) : ℚ)

theorem meanQ_eq (xs : List ℚ) : meanQ xs = xs.sum / (xs.length : ℚ) := by
  rw [meanQ, qdiv_eq, qsum_eq]

/-- One step of the stable insertion sort modelling Python `list.sort`:
insert `a` before the first element `b` with `le a b`. -/
def pyInsert (le : α → α → Bool) (a : α) : List α → List α
  | [] => [a]
  | b :: l => if le a b then a :: b :: l else b :: pyInsert le a l

/-- Stable sort modelling Python `list.sort` with a total boolean
preorder `le` (elements comparing equal keep their original order,
exactly as CPython's stable Timsort guarantees). -/
def pySort (le : α → α → Bool) (l : List α) : List α :=
  l.foldr (pyInsert le) []

/-- Python `list.sort(key=key, reverse=reverse)` for a rational-valued
key. -/
def sortByKey (key : α → ℚ) (reverse : Bool) (l : List α) : List α :=
  pySort (fun a b => if reverse then decide (key b ≤ key a) else decide (key a ≤ key b)) l

theorem pyInsert_perm (le : α → α → Bool) (a : α) (l : List α) :
    List.Perm (pyInsert le a l) (a :: l) := by
  induction l with
  | nil => rfl
  | cons b t ih =>
    by_cases h : le a b = true
    · simp [pyInsert, h]
    · simp only [pyInsert, h]
      rw [if_neg (by simp [h])]
      exact ((ih.cons b).trans (List.Perm.swap a b t))

theorem pySort_perm (le : α → α → Bool) (l : List α) : List.Perm (pySort le l) l := by
  induction l with
  | nil => rfl
  | cons a t ih => exact (pyInsert_perm le a (pySort le t)).trans (ih.cons a)

theorem pySort_length (le : α → α → Bool) (l : List α) :
    (pySort le l).length = l.length :=
  (pySort_perm le l).length_eq

theorem sortByKey_length (key : α → ℚ) (reverse : Bool) (l : List α) :
    (sortByKey key reverse l).length = l.length :=
  pySort_length _ l

theorem mem_pySort {le : α → α → Bool} {l : List α} {a : α} :
    a ∈ pySort le l ↔ a ∈ l :=
  (pySort_perm le l).mem_iff


/-! Label-ranking engine: `backend/app/services/label_calculator.py`. -/

/-- Parameters dictionary of the label rules.  Python reads
`params.get("top_k", 20)` and `params.get("min_market_cap", 0)`; a missing
key is identified with its default value. -/
structure LCParams where
  top_k : ℕ := 20
  min_market_cap : ℚ := 0
deriving DecidableEq

/-- One daily price row of a single symbol as the label rules consume it
(only the close and volume columns are read); rows are listed in
ascending date order, as guaranteed by the ORDER BY of
`_load_price_data_for_symbol` and the sort in `_calculate_price_change_top`. -/
structure PriceRowS where
  close : ℚ
  volume : ℚ
deriving DecidableEq

/-- Panel consumed by the ranking rules: each available symbol paired with
its date-ordered rows in the window. -/
abbrev LCPanel := List (String × List PriceRowS)

/-- Per-stock result dictionary appended by the rule loops.  Each Python
rule builds a dict with its own keys; a key absent from that rule's dict
is `none`. -/
structure StockEntry where
  symbol : String
  change_pct : Option ℚ := none
  start_price : Option ℚ := none
  end_price : Option ℚ := none
  avg_volume : Option ℚ := none
  total_volume : Option ℚ := none
  last_price : Option ℚ := none
  turnover_rate : Option ℚ := none
  avg_price : Option ℚ := none
deriving DecidableEq

/-- Loop body of `_calculate_price_change_top_optimized`
(label_calculator.py lines 218-266) for one symbol: skip on empty data or
fewer than 2 rows; compute `change_pct` from first and last close; the
Python guard `if first_price and last_price and first_price > 0` tests
float truthiness, i.e. `first_price ≠ 0 ∧ last_price ≠ 0 ∧ first_price > 0`;
apply the `min_market_cap` filter via `last_price * mean(volume)`. -/
def optimizedEntry (sym : String) (rows : List PriceRowS) (p : LCParams) : Option StockEntry :=
  if rows.isEmpty ∨ rows.length < 2 then none
  else
    let first_price := ((rows.head?).map PriceRowS.close).getD 0
    let last_price := ((rows.getLast?).map PriceRowS.close).getD 0
    if first_price ≠ 0 ∧ last_price ≠ 0 ∧ first_price > 0 then
      let change_pct := qmul (qdiv (qsub last_price first_price) first_price) 100
      let avg_vol := meanQ (rows.map PriceRowS.volume)
      if p.min_market_cap > 0 ∧ qmul last_price avg_vol < p.min_market_cap then none
      else some { symbol := sym, change_pct := some change_pct,
                  start_price := some first_price, end_price := some last_price,
                  avg_volume := some avg_vol }
    else none

/-- Loop body of `_calculate_price_change_top` (lines 291-317) for one
symbol; identical tests and fields to the optimized variant, with the
check on fewer than 2 rows only. -/
def plainEntry (sym : String) (rows : List PriceRowS) (p : LCParams) : Option StockEntry :=
  if rows.length < 2 then none
  else
    let first_price := ((rows.head?).map PriceRowS.close).getD 0
    let last_price := ((rows.getLast?).map PriceRowS.close).getD 0
    if first_price ≠ 0 ∧ last_price ≠ 0 ∧ first_price > 0 then
      let change_pct := qmul (qdiv (qsub last_price first_price) first_price) 100
      let avg_vol := meanQ (rows.map PriceRowS.volume)
      if p.min_market_cap > 0 ∧ qmul last_price avg_vol < p.min_market_cap then none
      else some { symbol := sym, change_pct := some change_pct,
                  start_price := some first_price, end_price := some last_price,
                  avg_volume := some avg_vol }
    else none

/-- Embeds `_calculate_price_change_top_optimized` (lines 201-274), used
by the rules 涨幅最大TOP20 (`ascending = true`) and 跌幅最大TOP20
(`ascending = false`): build the change entries, then
`stock_changes.sort(key=change_pct, reverse=not ascending)` and take the
first 20 — the slice bound is the hardcoded literal 20 in the source, not
`params.top_k`. -/
def calculatePriceChangeTopOptimized (panel : LCPanel) (ascending : Bool) (p : LCParams) :
    List StockEntry :=
  let stock_changes := panel.filterMap (fun x => optimizedEntry x.1 x.2 p)
  (sortByKey (fun e => e.change_pct.getD 0) (!ascending) stock_changes).take 20

/-- Embeds `_calculate_price_change_top` (lines 276-328): same pipeline
but the final slice uses `params.get("top_k", 20)`. -/
def calculatePriceChangeTop (panel : LCPanel) (ascending : Bool) (p : LCParams) :
    List StockEntry :=
  let stock_changes := panel.filterMap (fun x => plainEntry x.1 x.2 p)
  (sortByKey (fun e => e.change_pct.getD 0) (!ascending) stock_changes).take p.top_k

/-- Embeds `_calculate_market_cap_change_top` (lines 330-340), which
simply delegates to `_calculate_price_change_top`. -/
def calculateMarketCapChangeTop (panel : LCPanel) (ascending : Bool) (p : LCParams) :
    List StockEntry :=
  calculatePriceChangeTop panel ascending p

/-- Loop body of `_calculate_volume_top` (lines 354-374) for one symbol;
the guard `if avg_volume and total_volume and last_price` is float
truthiness (none of the three equal to 0; an empty series makes the mean
null, which the guard also rejects, so identifying it with 0 is sound). -/
def volumeEntry (sym : String) (rows : List PriceRowS) (p : LCParams) : Option StockEntry :=
  let avg_volume := meanQ (rows.map PriceRowS.volume)
  let total_volume := qsum (rows.map PriceRowS.volume)
  let last_price := ((rows.getLast?).map PriceRowS.close).getD 0
  if avg_volume ≠ 0 ∧ total_volume ≠ 0 ∧ last_price ≠ 0 then
    if p.min_market_cap > 0 ∧ qmul last_price avg_volume < p.min_market_cap then none
    else some { symbol := sym, avg_volume := some avg_volume,
                total_volume := some total_volume, last_price := some last_price }
  else none

/-- Embeds `_calculate_volume_top` (lines 342-385): sort by avg_volume
descending (`reverse=True`) and take `params.top_k`. -/
def calculateVolumeTop (panel : LCPanel) (p : LCParams) : List StockEntry :=
  let stock_volumes := panel.filterMap (fun x => volumeEntry x.1 x.2 p)
  (sortByKey (fun e => e.avg_volume.getD 0) true stock_volumes).take p.top_k

/-- Loop body of `_calculate_turnover_rate_top` (lines 400-415) for one
symbol.  Note the function never reads `min_market_cap`. -/
def turnoverEntry (sym : String) (rows : List PriceRowS) : Option StockEntry :=
  let avg_volume := meanQ (rows.map PriceRowS.volume)
  let avg_price := meanQ (rows.map PriceRowS.close)
  if avg_volume ≠ 0 ∧ avg_price ≠ 0 ∧ avg_price > 0 then
    some { symbol := sym, turnover_rate := some (qdiv avg_volume avg_price),
           avg_volume := some avg_volume, avg_price := some avg_price }
  else none

/-- Embeds `_calculate_turnover_rate_top` (lines 387-426): sort by the
turnover proxy descending and take `params.top_k`. -/
def calculateTurnoverRateTop (panel : LCPanel) (p : LCParams) : List StockEntry :=
  let stock_turnover := panel.filterMap (fun x => turnoverEntry x.1 x.2)
  (sortByKey (fun e => e.turnover_rate.getD 0) true stock_turnover).take p.top_k

/-- Embeds the rule dispatch of `_execute_rule_calculation` (lines
78-121): an empty symbol universe raises 没有可用的股票数据 before the
dispatch, and an unknown rule name raises 未知的规则类型. -/
def executeRuleCalculation (panel : LCPanel) (rule : String) (p : LCParams) :
    Except String (List StockEntry) :=
  if panel.isEmpty then .error "没有可用的股票数据"
  else if rule = "涨幅最大TOP20" then .ok (calculatePriceChangeTopOptimized panel true p)
  else if rule = "跌幅最大TOP20" then .ok (calculatePriceChangeTopOptimized panel false p)
  else if rule = "市值涨幅最大TOP20" then .ok (calculateMarketCapChangeTop panel true p)
  else if rule = "市值跌幅最大TOP20" then .ok (calculateMarketCapChangeTop panel false p)
  else if rule = "成交量最大TOP20" then .ok (calculateVolumeTop panel p)
  else if rule = "换手率最高TOP20" then .ok (calculateTurnoverRateTop panel p)
  else .error ("未知的规则类型: " ++ rule)


/-! Persistence of labels.  The store is modelled as the two relevant
tables, each a list of rows in insertion order; `DELETE ... WHERE` is
filtering, `INSERT` is appending.  The schema (database.py lines 206-228)
declares no foreign key and no cascade between `labels` and
`label_stocks`. -/

/-- Row of the `labels` table (name, rule, start_date, end_date); the
created_at timestamp is irrelevant to the claims and omitted. -/
structure LabelRow where
  name : String
  rule : String
  start_date : String
  end_date : String
deriving DecidableEq

/-- Row of the `label_stocks` table; `metadata_json` is kept as the
structured entry it serializes. -/
structure LabelStockRow where
  label_name : String
  symbol : String
  rank : ℕ
  score : ℚ
  metadata : StockEntry
deriving DecidableEq

/-- State of the label store. -/
structure LabelDB where
  labels : List LabelRow
  label_stocks : List LabelStockRow
deriving DecidableEq

/-- Score stored for a member row: the Python expression
`stock.get("change_pct", stock.get("avg_volume", stock.get("turnover_rate", 0)))`
from `_save_label_data` line 459 — the first present key of change_pct,
avg_volume, turnover_rate wins, defaulting to 0. -/
def scoreOf (e : StockEntry) : ℚ :=
  e.change_pct.getD (e.avg_volume.getD (e.turnover_rate.getD 0))

/-- Embeds `_save_label_data` (lines 428-462): delete rows of `labels`
with this name, insert the new label row, then insert one `label_stocks`
row per entry with `rank = i + 1` in list order.  The source deletes from
the `labels` table only. -/
def saveLabelData (db : LabelDB) (label_name rule : String)
    (label_data : List StockEntry) (start_date end_date : String) : LabelDB :=
  let db := { db with labels := db.labels.filter (fun r => !(decide (r.name = label_name))) }
  let newLabel : LabelRow :=
    { name := label_name, rule := rule, start_date := start_date, end_date := end_date }
  let db := { db with labels := db.labels ++ [newLabel] }
  let newStock : ℕ × StockEntry → LabelStockRow := fun x =>
    { label_name := label_name, symbol := x.2.symbol, rank := x.1 + 1,
      score := scoreOf x.2, metadata := x.2 }
  { db with label_stocks := db.label_stocks ++ label_data.enum.map newStock }

/-- Embeds `delete_label` (lines 574-585): delete the member rows, then
the label row. -/
def deleteLabel (db : LabelDB) (label_name : String) : LabelDB :=
  let db := { db with label_stocks :=
      db.label_stocks.filter (fun r => !(decide (r.label_name = label_name))) }
  { db with labels := db.labels.filter (fun r => !(decide (r.name = label_name))) }

/-- Member rows the store returns for a label, as `get_label_stocks`
selects them (`WHERE label_name = ?`). -/
def labelMembers (db : LabelDB) (label_name : String) : List LabelStockRow :=
  db.label_stocks.filter (fun r => decide (r.label_name = label_name))


/-! Backtest engine: `backend/app/engine/backtest_engine.py`.  Dates are
ISO strings in the source, compared and sorted lexicographically; a
zero-padded ISO string compares exactly like its (year, month, day)
triple, which is the representation used here. -/

/-- Calendar date as parsed by `datetime.fromisoformat`. -/
structure Date where
  year : ℕ
  month : ℕ
  day : ℕ
deriving DecidableEq

/-- Lexicographic comparison of dates, matching string comparison of
zero-padded ISO dates. -/
def Date.le (a b : Date) : Bool :=
  decide (a.year < b.year) ||
    (decide (a.year = b.year) &&
      (decide (a.month < b.month) ||
        (decide (a.month = b.month) && decide (a.day ≤ b.day))))

/-- Days before January 1 of the given year, counted from 0001-01-01 of
the proleptic Gregorian calendar (so the ordinal of 0001-01-01 is 1, as
in Python `date.toordinal`). -/
def daysBeforeYear (y : ℕ) : ℕ :=
  365 * (y - 1) + (y - 1) / 4 - (y - 1) / 100 + (y - 1) / 400

/-- Leap-year test of the Gregorian calendar. -/
def isLeapYear (y : ℕ) : Bool :=
  (y % 4 == 0 && y % 100 != 0) || y % 400 == 0

/-- Days in the given year before the first of the given month. -/
def daysBeforeMonth (y m : ℕ) : ℕ :=
  [0, 0, 31, 59, 90, 120, 151, 181, 212, 243, 273, 304, 334].getD m 0 +
    (if 2 < m ∧ isLeapYear y then 1 else 0)

/-- Python `date.toordinal()`: 0001-01-01 is day 1. -/
def Date.toordinal (d : Date) : ℕ :=
  daysBeforeYear d.year + daysBeforeMonth d.year d.month + d.day

/-- Python `date.weekday()`: Monday is 0.  The ordinal of 0001-01-01 is 1
and that day was a Monday in the proleptic Gregorian calendar. -/
def Date.weekday (d : Date) : ℕ := (d.toordinal + 6) % 7

/-- Price row as the engine consumes it (`date, symbol, close`; the other
OHLCV columns are never read by the signal or simulation code).  The
price panel is the list of rows in the order the query returns them:
ascending by date, then symbol. -/
structure PRow where
  date : Date
  symbol : String
  close : ℚ
deriving DecidableEq

/-- Distinct trading dates of a panel in ascending order — the expression
`df.select("date").unique().sort("date")` used by `_get_rebalance_dates`
and `_simulate_trading`. -/
def panelDates (panel : List PRow) : List Date :=
  pySort Date.le ((panel.map PRow.date).dedup)

/-- Fold of the monthly branch of `_get_rebalance_dates` (lines 229-238):
`current_month` starts as Python None and stores only the month number of
the last emitted date — the year is not part of the comparison. -/
def monthlyFirsts : Option ℕ → List Date → List Date
  | _, [] => []
  | cur, d :: rest =>
    if cur ≠ some d.month then d :: monthlyFirsts (some d.month) rest
    else monthlyFirsts cur rest

/-- Embeds `_get_rebalance_dates` (lines 220-240). -/
def getRebalanceDates (panel : List PRow) (frequency : String) : Except String (List Date) :=
  let dates := panelDates panel
  if frequency = "daily" then .ok dates
  else if frequency = "weekly" then .ok (dates.filter (fun d => decide (d.weekday = 0)))
  else if frequency = "monthly" then .ok (monthlyFirsts none dates)
  else .error ("不支持的调仓频率: " ++ frequency)

/-- Row-by-row computation of the momentum metric column
`close / close.shift(lookback).over(symbol) - 1` (line 156): for each row,
its per-symbol position j is the number of earlier rows of the same
symbol; the metric is defined when `lookback ≤ j`, dividing by the close
lookback positions earlier within the symbol group.  `acc` accumulates
the rows already passed. -/
def momentumScan (lb : ℕ) (acc : List PRow) : List PRow → List (PRow × Option ℚ)
  | [] => []
  | r :: rest =>
    let closes := ((acc.filter (fun x => decide (x.symbol = r.symbol))).map PRow.close)
      ++ [r.close]
    let m : Option ℚ :=
      if lb + 1 ≤ closes.length then
        some (qsub (qdiv r.close (closes.getD (closes.length - 1 - lb) 0)) 1)
      else none
    (r, m) :: momentumScan lb (acc ++ [r]) rest

/-- Momentum frame: the panel with its return column. -/
def momentumFrame (panel : List PRow) (lb : ℕ) : List (PRow × Option ℚ) :=
  momentumScan lb [] panel

/-- Row-by-row computation of the mean-reversion metric
`(close - rolling_mean(close, lookback)) / rolling_mean(close, lookback)`
over each symbol (lines 193-197): the rolling mean is defined once the
symbol has at least `lookback` rows (polars default min_periods equals
the window size), averaging the last `lookback` closes including the
current row. -/
def deviationScan (lb : ℕ) (acc : List PRow) : List PRow → List (PRow × Option ℚ)
  | [] => []
  | r :: rest =>
    let closes := ((acc.filter (fun x => decide (x.symbol = r.symbol))).map PRow.close)
      ++ [r.close]
    let m : Option ℚ :=
      if 1 ≤ lb ∧ lb ≤ closes.length then
        let ma := meanQ (closes.drop (closes.length - lb))
        some (qdiv (qsub r.close ma) ma)
      else none
    (r, m) :: deviationScan lb (acc ++ [r]) rest

/-- Mean-reversion frame: the panel with its deviation column. -/
def deviationFrame (panel : List PRow) (lb : ℕ) : List (PRow × Option ℚ) :=
  deviationScan lb [] panel

/-- Transient signal record, the dict built at lines 172-178 and 210-216. -/
structure Signal where
  date : Date
  symbol : String
  signal : String
  weight : ℚ
  price : ℚ
deriving DecidableEq

/-- Loop body of `_momentum_signals` for one rebalance date (lines
163-178): keep the rows of that date with a non-null return, and only if
at least `top_k` remain, sort by return descending, take the first
`top_k` and emit equal-weight BUY signals priced at that close. -/
def momentumEmit (df : List (PRow × Option ℚ)) (top_k : ℕ) (d : Date) : List Signal :=
  let date_data := df.filter (fun x => decide (x.1.date = d) && x.2.isSome)
  if top_k ≤ date_data.length then
    ((sortByKey (fun x => x.2.getD 0) true date_data).take top_k).map (fun x =>
      { date := d, symbol := x.1.symbol, signal := "BUY",
        weight := qdiv 1 ((top_k : ℕ) : ℚ), price := x.1.close })
  else []

/-- Loop body of `_mean_reversion_signals` for one rebalance date (lines
202-216): same shape, sorting by deviation ascending. -/
def meanReversionEmit (df : List (PRow × Option ℚ)) (top_k : ℕ) (d : Date) : List Signal :=
  let date_data := df.filter (fun x => decide (x.1.date = d) && x.2.isSome)
  if top_k ≤ date_data.length then
    ((sortByKey (fun x => x.2.getD 0) false date_data).take top_k).map (fun x =>
      { date := d, symbol := x.1.symbol, signal := "BUY",
        weight := qdiv 1 ((top_k : ℕ) : ℚ), price := x.1.close })
  else []

/-- Embeds `_momentum_signals` (lines 144-180). -/
def momentumSignals (panel : List PRow) (frequency : String) (top_k lookback : ℕ) :
    Except String (List Signal) :=
  let df := momentumFrame panel lookback
  match getRebalanceDates panel frequency with
  | .error e => .error e
  | .ok rdates => .ok ((rdates.map (momentumEmit df top_k)).flatten)

/-- Embeds `_mean_reversion_signals` (lines 182-218). -/
def meanReversionSignals (panel : List PRow) (frequency : String) (top_k lookback : ℕ) :
    Except String (List Signal) :=
  let df := deviationFrame panel lookback
  match getRebalanceDates panel frequency with
  | .error e => .error e
  | .ok rdates => .ok ((rdates.map (meanReversionEmit df top_k)).flatten)

/-- Embeds `_generate_signals` (lines 127-142): dispatch on the strategy
string, unknown strategies raise. -/
def generateSignals (panel : List PRow) (strategy_type frequency : String)
    (top_k lookback : ℕ) : Except String (List Signal) :=
  if strategy_type = "momentum" then momentumSignals panel frequency top_k lookback
  else if strategy_type = "mean_reversion" then
    meanReversionSignals panel frequency top_k lookback
  else .error ("不支持的策略类型: " ++ strategy_type)


/-! Portfolio simulator, `_simulate_trading` (lines 242-326). -/

/-- Row of the trade ledger. -/
structure Trade where
  date : Date
  symbol : String
  action : String
  shares : ℤ
  price : ℚ
  value : ℚ
deriving DecidableEq

/-- Row of the daily portfolio history; the Python dict key `return` is
rendered `ret` here. -/
structure PortfolioState where
  date : Date
  cash : ℚ
  positions_value : ℚ
  total_value : ℚ
  ret : ℚ
deriving DecidableEq

/-- Mutable state of the simulation loop.  `positions` models the Python
dict current_positions in insertion order. -/
structure SimState where
  cash : ℚ
  positions : List (String × ℤ)
  history : List PortfolioState
  trades : List Trade
deriving DecidableEq

/-- Python dict assignment `positions[symbol] = shares`: replace the
value in place when the key exists, append otherwise. -/
def posUpdate (sym : String) (sh : ℤ) : List (String × ℤ) → List (String × ℤ)
  | [] => [(sym, sh)]
  | (s, v) :: rest =>
    if s = sym then (s, sh) :: rest else (s, v) :: posUpdate sym sh rest

/-- Liquidation step (lines 267-280): for each held position with shares
greater than 0, sell at the close of that date when a quote exists; a
position without a quote is silently skipped. -/
def sellStep (d : Date) (daily : List PRow) (acc : ℚ × List Trade) (pos : String × ℤ) :
    ℚ × List Trade :=
  if 0 < pos.2 then
    match daily.find? (fun r => decide (r.symbol = pos.1)) with
    | some pr =>
      (qadd acc.1 (qmul ((pos.2 : ℤ) : ℚ) pr.close),
       acc.2 ++ [{ date := d, symbol := pos.1, action := "SELL", shares := pos.2,
                   price := pr.close, value := qmul ((pos.2 : ℤ) : ℚ) pr.close }])
    | none => acc
  else acc

/-- Acquisition step (lines 285-306): target allocation is
`cash * weight`, shares is the Python `int` of `target / price`, and a
buy is executed only when shares is positive. -/
def buyStep (st : ℚ × List (String × ℤ) × List Trade) (sig : Signal) :
    ℚ × List (String × ℤ) × List Trade :=
  let target_value := qmul st.1 sig.weight
  let shares := pytrunc (qdiv target_value sig.price)
  if 0 < shares then
    let actual_value := qmul ((shares : ℤ) : ℚ) sig.price
    (qsub st.1 actual_value, posUpdate sig.symbol shares st.2.1,
     st.2.2 ++ [{ date := sig.date, symbol := sig.symbol, action := "BUY",
                  shares := shares, price := sig.price, value := actual_value }])
  else st

/-- Daily valuation (lines 308-314): mark every held position to the close
of the date, contributing nothing when the symbol has no quote. -/
def positionsValue (daily : List PRow) (positions : List (String × ℤ)) : ℚ :=
  positions.foldl (fun acc pos =>
    match daily.find? (fun r => decide (r.symbol = pos.1)) with
    | some pr => qadd acc (qmul ((pos.2 : ℤ) : ℚ) pr.close)
    | none => acc) 0

/-- One iteration of the date loop of `_simulate_trading` (lines
259-324). -/
def simStep (panel : List PRow) (signals : List Signal) (initial : ℚ)
    (st : SimState) (d : Date) : SimState :=
  let daily_prices := panel.filter (fun r => decide (r.date = d))
  let daily_signals := signals.filter (fun sg => decide (sg.date = d))
  let st1 :=
    if daily_signals.isEmpty then st
    else
      let sold := st.positions.foldl (sellStep d daily_prices) (st.cash, st.trades)
      let bought := daily_signals.foldl buyStep (sold.1, [], sold.2)
      { st with cash := bought.1, positions := bought.2.1, trades := bought.2.2 }
  let pv := positionsValue daily_prices st1.positions
  let total := qadd st1.cash pv
  { st1 with history := st1.history ++
      [{ date := d, cash := st1.cash, positions_value := pv, total_value := total,
         ret := qdiv (qsub total initial) initial }] }

/-- Date loop of `_simulate_trading`. -/
def simRun (panel : List PRow) (signals : List Signal) (initial : ℚ)
    (st : SimState) : List Date → SimState
  | [] => st
  | d :: rest => simRun panel signals initial (simStep panel signals initial st d) rest

/-- Embeds `_simulate_trading` (lines 242-326): walk the distinct panel
dates in ascending order starting from all cash, returning the portfolio
history and the trade ledger.  Scope note: when the signal list is empty
and the panel is not, the source raises rather than runs — the signal
frame `pl.DataFrame([])` has no columns, so the date filter at line 262
fails — whereas this typed embedding filters an empty list to an empty
list; concrete runs evaluated below therefore use non-empty signal
lists, on which the two agree. -/
def simulateTrading (panel : List PRow) (signals : List Signal) (initial : ℚ) :
    List PortfolioState × List Trade :=
  let final := simRun panel signals initial
    { cash := initial, positions := [], history := [], trades := [] } (panelDates panel)
  (final.history, final.trades)

/-- Embeds the win-rate computation of `_calculate_metrics` (lines
335-343 and 373-382): an empty portfolio history short-circuits the whole
metrics dict with `win_rate = 0.0`; otherwise win_rate starts at 0.0 and
is set to the constant 0.6 exactly when the ledger has at least one
trade. -/
def calcWinRate (portfolio_history : List PortfolioState) (trades : List Trade) : ℚ :=
  if portfolio_history.isEmpty then 0
  else if 0 < trades.length then Rat.divInt 3 5
  else 0


/-! Claim-level results for the label-ranking engine. -/

theorem plainEntry_eq_optimizedEntry (sym : String) (rows : List PriceRowS) (p : LCParams) :
    plainEntry sym rows p = optimizedEntry sym rows p := by
  unfold plainEntry optimizedEntry
  rcases rows with _ | ⟨r, t⟩
  · simp
  · simp

/-- Panel exhibiting the gainers-rule defects: AAA rises 10 → 20
(+100 percent), BBB stays flat at 10 (0 percent). -/
def cxPanelC3 : LCPanel := [("AAA", [⟨10, 1⟩, ⟨20, 1⟩]), ("BBB", [⟨10, 1⟩, ⟨10, 1⟩])]

/-- C3: the 涨幅最大TOP20 (biggest gainers) rule, evaluated on a panel
where AAA gains 100 percent and BBB gains 0 percent, ranks BBB first:
`reverse=not ascending` with `ascending=True` sorts change_pct ascending,
the opposite of the descending order the claim states; and with
`top_k = 1` it still returns 2 symbols, because
`_calculate_price_change_top_optimized` slices `[:20]` with a hardcoded
20, ignoring `params` top_k. -/
theorem gainers_rule_sorts_ascending_and_ignores_top_k :
    (executeRuleCalculation cxPanelC3 "涨幅最大TOP20" {}).map
        (fun l => l.map StockEntry.symbol) = Except.ok ["BBB", "AAA"]
    ∧ (executeRuleCalculation cxPanelC3 "涨幅最大TOP20" { top_k := 1 }).map
        (fun l => l.length) = Except.ok 2 :=
  ⟨rfl, rfl⟩

/-- Panel on which the market-cap variant and the plain gainers rule
disagree once `top_k = 1`: both symbols qualify, the plain rule still
returns 2 entries (hardcoded 20) while the variant returns 1. -/
def cxPanelC6 : LCPanel := [("AAA", [⟨10, 1⟩, ⟨20, 1⟩]), ("BBB", [⟨10, 1⟩, ⟨10, 1⟩])]

/-- C6 counterexample: with `top_k = 1` the market-cap-weighted gainers
computation and the plain gainers computation return different lists, so
the two rules are not aliases for all params. -/
theorem mcap_variant_differs_from_plain_cx :
    calculateMarketCapChangeTop cxPanelC6 true { top_k := 1 }
      ≠ calculatePriceChangeTopOptimized cxPanelC6 true { top_k := 1 } := by
  decide

/-- C6 (amended): the market-cap-weighted gainers and losers rules
compute exactly what the plain gainers and losers rules compute whenever
`top_k` is 20, its default; for other values the plain rules keep slicing
at the hardcoded 20 while the market-cap variants slice at `top_k`, and
the outputs can differ. -/
theorem mcap_variant_eq_plain_at_top_k_20 (panel : LCPanel) (ascending : Bool) (mc : ℚ) :
    calculateMarketCapChangeTop panel ascending { top_k := 20, min_market_cap := mc }
      = calculatePriceChangeTopOptimized panel ascending { top_k := 20, min_market_cap := mc } := by
  unfold calculateMarketCapChangeTop calculatePriceChangeTop calculatePriceChangeTopOptimized
  simp only [plainEntry_eq_optimizedEntry]

/-- Single-symbol panels on which the min_market_cap filter bites for
the volume and gainers rules. -/
def mcDemoVolume : LCPanel := [("A", [⟨1, 10⟩])]

def mcDemoGainers : LCPanel := [("A", [⟨10, 10⟩, ⟨20, 10⟩])]

/-- C10: the 换手率最高TOP20 (highest turnover) rule reads nothing from
`min_market_cap` — its output is identical under any two values of the
filter with the same `top_k` — whereas the volume rule and the gainers
rule do change output when the filter is raised. -/
theorem turnover_rule_ignores_min_market_cap :
    (∀ (panel : LCPanel) (k : ℕ) (mc1 mc2 : ℚ),
        calculateTurnoverRateTop panel { top_k := k, min_market_cap := mc1 }
          = calculateTurnoverRateTop panel { top_k := k, min_market_cap := mc2 })
    ∧ calculateVolumeTop mcDemoVolume { min_market_cap := 0 }
        ≠ calculateVolumeTop mcDemoVolume { min_market_cap := 1000 }
    ∧ calculatePriceChangeTopOptimized mcDemoGainers true { min_market_cap := 0 }
        ≠ calculatePriceChangeTopOptimized mcDemoGainers true { min_market_cap := 1000 } :=
  ⟨fun _ _ _ _ => rfl, by decide, by decide⟩

/-- Turnover panel: symbol A has average volume 10 at average price 1
(turnover proxy 10), symbol B average volume 20 at average price 10
(turnover proxy 2). -/
def cxPanelC7 : LCPanel := [("A", [⟨1, 10⟩]), ("B", [⟨10, 20⟩])]

/-- Store state after materializing the turnover label on `cxPanelC7`. -/
def dbC7 : LabelDB :=
  saveLabelData ⟨[], []⟩ "T" "换手率最高TOP20"
    (calculateTurnoverRateTop cxPanelC7 {}) "2023-01-01" "2023-02-01"

/-- C7: the turnover rule ranks A before B by descending turnover proxy
(10 versus 2), and the persisted ranks are the dense 1, 2 — but the
persisted scores are 10 and 20, the average volumes, not the turnover
proxies the sort used: the fallback chain change_pct / avg_volume /
turnover_rate in `_save_label_data` hits avg_volume first, so the stored
scores increase while the rule sorts descending. -/
theorem turnover_saved_scores_break_sort_direction :
    (calculateTurnoverRateTop cxPanelC7 {}).map
        (fun e => (e.symbol, e.turnover_rate)) = [("A", some 10), ("B", some 2)]
    ∧ (labelMembers dbC7 "T").map (fun r => (r.symbol, r.rank, r.score))
        = [("A", 1, 10), ("B", 2, 20)] := by
  exact ⟨by decide, by decide⟩

/-- Entries of the two successive computations of label L. -/
def entryRun1 : StockEntry := { symbol := "A", change_pct := some 100 }

def entryRun2 : StockEntry := { symbol := "B", change_pct := some 50 }

/-- Store state after computing label L twice: first run persists member
A, second run persists member B under the same name. -/
def dbC1AfterTwoRuns : LabelDB :=
  saveLabelData
    (saveLabelData ⟨[], []⟩ "L" "涨幅最大TOP20" [entryRun1] "2023-01-01" "2023-02-01")
    "L" "涨幅最大TOP20" [entryRun2] "2023-01-01" "2023-02-01"

/-- C1: after the second computation of label L, whose member set is the
single symbol B, the persisted member rows for L are A (rank 1, from the
first run) and B (rank 1, from the second run) — two rows instead of the
one the second run produced, because `_save_label_data` deletes from the
`labels` table only and never clears `label_stocks`. -/
theorem save_label_leaves_old_member_rows :
    (labelMembers dbC1AfterTwoRuns "L").map (fun r => (r.symbol, r.rank))
      = [("A", 1), ("B", 1)]
    ∧ (labelMembers dbC1AfterTwoRuns "L").length = 2 := by
  exact ⟨by decide, by decide⟩

/-- Panel whose distinct dates are 2023-01-15 and 2024-01-10: two
distinct (year, month) pairs sharing the month number 1. -/
def cxPanelC5 : List PRow := [⟨⟨2023, 1, 15⟩, "A", 1⟩, ⟨⟨2024, 1, 10⟩, "A", 1⟩]

/-- C5: on a panel holding the first trading dates of January 2023 and
January 2024, the monthly branch of `_get_rebalance_dates` returns only
the 2023 date: it tracks just `date_obj.month`, so the first date of a
(year, month) pair whose month number equals the previous rebalance month
is skipped, against the stated first-date-of-each-(year, month) rule. -/
theorem monthly_rebalance_misses_repeated_month_across_years :
    getRebalanceDates cxPanelC5 "monthly" = Except.ok [⟨2023, 1, 15⟩]
    ∧ (panelDates cxPanelC5).map (fun d => (d.year, d.month))
        = [(2023, 1), (2024, 1)] :=
  ⟨rfl, by decide⟩


/-! Claim-level results for configuration errors and the win-rate stub. -/

theorem generateSignals_momentum (panel : List PRow) (freq : String) (k lb : ℕ) :
    generateSignals panel "momentum" freq k lb = momentumSignals panel freq k lb := by
  unfold generateSignals
  rw [if_pos rfl]

theorem generateSignals_mean_reversion (panel : List PRow) (freq : String) (k lb : ℕ) :
    generateSignals panel "mean_reversion" freq k lb
      = meanReversionSignals panel freq k lb := by
  unfold generateSignals
  rw [if_neg (by decide), if_pos rfl]

theorem getRebalanceDates_unsupported (panel : List PRow) (freq : String)
    (h1 : freq ≠ "daily") (h2 : freq ≠ "weekly") (h3 : freq ≠ "monthly") :
    getRebalanceDates panel freq = Except.error ("不支持的调仓频率: " ++ freq) := by
  unfold getRebalanceDates
  rw [if_neg h1, if_neg h2, if_neg h3]

/-- C9: any unsupported strategy_type makes `_generate_signals` raise at
once with the 不支持的策略类型 error; any unsupported
rebalance_frequency makes both supported strategies raise the
不支持的调仓频率 error of `_get_rebalance_dates`; and any unsupported
rule name makes `_execute_rule_calculation` raise — in every case an
`Except.error`, never a partial or default result. -/
theorem unsupported_config_is_error :
    (∀ (panel : List PRow) (st freq : String) (k lb : ℕ),
        st ≠ "momentum" → st ≠ "mean_reversion" →
        generateSignals panel st freq k lb
          = Except.error ("不支持的策略类型: " ++ st))
    ∧ (∀ (panel : List PRow) (freq : String) (k lb : ℕ),
        freq ≠ "daily" → freq ≠ "weekly" → freq ≠ "monthly" →
        generateSignals panel "momentum" freq k lb
            = Except.error ("不支持的调仓频率: " ++ freq)
        ∧ generateSignals panel "mean_reversion" freq k lb
            = Except.error ("不支持的调仓频率: " ++ freq))
    ∧ (∀ (panel : LCPanel) (rule : String) (p : LCParams),
        rule ≠ "涨幅最大TOP20" → rule ≠ "跌幅最大TOP20" →
        rule ≠ "市值涨幅最大TOP20" → rule ≠ "市值跌幅最大TOP20" →
        rule ≠ "成交量最大TOP20" → rule ≠ "换手率最高TOP20" →
        ∃ e, executeRuleCalculation panel rule p = Except.error e) := by
  refine ⟨?_, ?_, ?_⟩
  · intro panel st freq k lb h1 h2
    unfold generateSignals
    rw [if_neg h1, if_neg h2]
  · intro panel freq k lb h1 h2 h3
    have hr := getRebalanceDates_unsupported panel freq h1 h2 h3
    constructor
    · rw [generateSignals_momentum]
      unfold momentumSignals
      rw [hr]
    · rw [generateSignals_mean_reversion]
      unfold meanReversionSignals
      rw [hr]
  · intro panel rule p h1 h2 h3 h4 h5 h6
    by_cases hp : panel.isEmpty = true
    · exact ⟨"没有可用的股票数据", by unfold executeRuleCalculation; rw [if_pos hp]⟩
    · exact ⟨"未知的规则类型: " ++ rule, by
        unfold executeRuleCalculation
        rw [if_neg hp, if_neg h1, if_neg h2, if_neg h3, if_neg h4, if_neg h5, if_neg h6]⟩

/-- Witness for C9 at concrete unsupported names. -/
theorem unsupported_config_is_error_witness :
    generateSignals [] "foo" "daily" 1 0 = Except.error ("不支持的策略类型: " ++ "foo")
    ∧ generateSignals [] "momentum" "yearly" 1 0
        = Except.error ("不支持的调仓频率: " ++ "yearly")
    ∧ ∃ e, executeRuleCalculation [] "foo" {} = Except.error e :=
  ⟨unsupported_config_is_error.1 [] "foo" "daily" 1 0 (by decide) (by decide),
   (unsupported_config_is_error.2.1 [] "yearly" 1 0 (by decide) (by decide) (by decide)).1,
   unsupported_config_is_error.2.2 [] "foo" {} (by decide) (by decide) (by decide)
     (by decide) (by decide) (by decide)⟩

/-- C2 (amended): for every non-empty portfolio history and every trade
ledger holding at least one trade, the win rate computed by
`_calculate_metrics` is the constant 0.6 regardless of the trades
themselves; a simulation whose ledger is empty gets 0.0 instead. -/
theorem win_rate_constant_when_trades_exist (h : List PortfolioState) (t : List Trade)
    (hh : h ≠ []) (ht : t ≠ []) : calcWinRate h t = 3 / 5 := by
  have h1 : h.isEmpty = false := by
    cases h with
    | nil => exact absurd rfl hh
    | cons a l => rfl
  have h2 : 0 < t.length := List.length_pos.mpr ht
  unfold calcWinRate
  rw [h1, if_neg (by simp), if_pos h2, Rat.divInt_eq_div]
  norm_num

/-- Witness for C2 at a concrete one-state history and one-trade ledger. -/
theorem win_rate_constant_witness :
    calcWinRate [{ date := ⟨2023, 1, 2⟩, cash := 100, positions_value := 0,
                   total_value := 100, ret := 0 }]
        [{ date := ⟨2023, 1, 2⟩, symbol := "A", action := "BUY", shares := 1,
           price := 10, value := 10 }] = 3 / 5 :=
  win_rate_constant_when_trades_exist _ _ (by decide) (by decide)

/-- One-symbol, one-day panel whose close (1000) exceeds the whole
allocation of a 100-capital run. -/
def cxPanelC2 : List PRow := [⟨⟨2023, 1, 2⟩, "A", 1000⟩]

/-- One equal-weight BUY signal priced at that close: the signal frame is
non-empty (so the date filter of `_simulate_trading` has its column and
the source run completes), but `shares = int(100 * 1.0 / 1000) = 0`, so
the buy is silently skipped and no trade is recorded — the
zero-capital-remaining edge case of the spec. -/
def cxSignalsC2 : List Signal := [⟨⟨2023, 1, 2⟩, "A", "BUY", 1, 1000⟩]

/-- C2 counterexample: a simulation whose only buy truncates to zero
shares produces a trade ledger (the empty one) for which
`_calculate_metrics` returns `win_rate = 0.0`, not the fixed 0.6 the
claim states for every produced ledger. -/
theorem win_rate_zero_on_tradeless_run_cx :
    (simulateTrading cxPanelC2 cxSignalsC2 100).2 = []
    ∧ calcWinRate (simulateTrading cxPanelC2 cxSignalsC2 100).1
        (simulateTrading cxPanelC2 cxSignalsC2 100).2 = 0
    ∧ (0 : ℚ) ≠ 3 / 5 :=
  ⟨by decide, by decide, by norm_num⟩


/-! Supporting lemmas for the per-rebalance-date signal claim. -/

theorem monthlyFirsts_sublist (cur : Option ℕ) (l : List Date) :
    List.Sublist (monthlyFirsts cur l) l := by
  induction l generalizing cur with
  | nil => exact List.Sublist.refl []
  | cons d rest ih =>
    unfold monthlyFirsts
    by_cases h : cur ≠ some d.month
    · rw [if_pos h]
      exact (ih (some d.month)).cons₂ d
    · rw [if_neg h]
      exact (ih cur).cons d

theorem panelDates_nodup (panel : List PRow) : (panelDates panel).Nodup :=
  ((pySort_perm Date.le (panel.map PRow.date).dedup).nodup_iff).mpr
    (List.nodup_dedup _)

theorem getRebalanceDates_nodup {panel : List PRow} {freq : String} {rdates : List Date}
    (h : getRebalanceDates panel freq = Except.ok rdates) : rdates.Nodup := by
  unfold getRebalanceDates at h
  split at h
  · cases h
    exact panelDates_nodup panel
  · split at h
    · cases h
      exact (panelDates_nodup panel).filter _
    · split at h
      · cases h
        exact (monthlyFirsts_sublist none (panelDates panel)).nodup (panelDates_nodup panel)
      · cases h

theorem momentumEmit_date {df : List (PRow × Option ℚ)} {k : ℕ} {d : Date} {s : Signal}
    (hs : s ∈ momentumEmit df k d) : s.date = d := by
  simp only [momentumEmit] at hs
  split at hs
  · obtain ⟨x, _, rfl⟩ := List.mem_map.mp hs
    rfl
  · cases hs

theorem meanReversionEmit_date {df : List (PRow × Option ℚ)} {k : ℕ} {d : Date} {s : Signal}
    (hs : s ∈ meanReversionEmit df k d) : s.date = d := by
  simp only [meanReversionEmit] at hs
  split at hs
  · obtain ⟨x, _, rfl⟩ := List.mem_map.mp hs
    rfl
  · cases hs

theorem filter_flatten_batches (emit : Date → List Signal)
    (hd : ∀ d x, x ∈ emit d → x.date = d) :
    ∀ (rdates : List Date), rdates.Nodup → ∀ d ∈ rdates,
      ((rdates.map emit).flatten).filter (fun s => decide (s.date = d)) = emit d := by
  intro rdates
  induction rdates with
  | nil => intro _ d hm; cases hm
  | cons a tl ih =>
    intro hnd d hm
    have ha : a ∉ tl := (List.nodup_cons.mp hnd).1
    have htl : tl.Nodup := (List.nodup_cons.mp hnd).2
    rw [List.map_cons, List.flatten_cons, List.filter_append]
    rcases List.mem_cons.mp hm with rfl | hdtl
    · have h1 : (emit d).filter (fun s => decide (s.date = d)) = emit d := by
        apply List.filter_eq_self.mpr
        intro x hx
        exact decide_eq_true (hd d x hx)
      have h2 : ((tl.map emit).flatten).filter (fun s => decide (s.date = d)) = [] := by
        apply List.filter_eq_nil_iff.mpr
        intro x hx
        obtain ⟨b, hb, hxb⟩ := List.mem_flatten.mp hx
        obtain ⟨e, he, rfl⟩ := List.mem_map.mp hb
        have : x.date = e := hd e x hxb
        simp only [decide_eq_true_eq, this]
        intro hde
        exact ha (hde ▸ he)
      rw [h1, h2, List.append_nil]
    · have h1 : (emit a).filter (fun s => decide (s.date = d)) = [] := by
        apply List.filter_eq_nil_iff.mpr
        intro x hx
        have : x.date = a := hd a x hx
        simp only [decide_eq_true_eq, this]
        intro hde
        exact ha (hde ▸ hdtl)
      rw [h1, List.nil_append]
      exact ih htl d hdtl


theorem momentumEmit_props (df : List (PRow × Option ℚ)) (k : ℕ) (d : Date) :
    (((df.filter (fun x => decide (x.1.date = d) && x.2.isSome)).length < k →
        momentumEmit df k d = [])
      ∧ (k ≤ (df.filter (fun x => decide (x.1.date = d) && x.2.isSome)).length →
        (momentumEmit df k d).length = k))
    ∧ ∀ s ∈ momentumEmit df k d, s.signal = "BUY" ∧ s.weight = qdiv 1 (k : ℚ) := by
  constructor
  · constructor
    · intro hlt
      simp only [momentumEmit]
      rw [if_neg (by omega)]
    · intro hk
      simp only [momentumEmit]
      rw [if_pos hk, List.length_map, List.length_take, sortByKey_length]
      omega
  · intro s hs
    simp only [momentumEmit] at hs
    split at hs
    · obtain ⟨x, _, rfl⟩ := List.mem_map.mp hs
      exact ⟨rfl, rfl⟩
    · cases hs

theorem meanReversionEmit_props (df : List (PRow × Option ℚ)) (k : ℕ) (d : Date) :
    (((df.filter (fun x => decide (x.1.date = d) && x.2.isSome)).length < k →
        meanReversionEmit df k d = [])
      ∧ (k ≤ (df.filter (fun x => decide (x.1.date = d) && x.2.isSome)).length →
        (meanReversionEmit df k d).length = k))
    ∧ ∀ s ∈ meanReversionEmit df k d, s.signal = "BUY" ∧ s.weight = qdiv 1 (k : ℚ) := by
  constructor
  · constructor
    · intro hlt
      simp only [meanReversionEmit]
      rw [if_neg (by omega)]
    · intro hk
      simp only [meanReversionEmit]
      rw [if_pos hk, List.length_map, List.length_take, sortByKey_length]
      omega
  · intro s hs
    simp only [meanReversionEmit] at hs
    split at hs
    · obtain ⟨x, _, rfl⟩ := List.mem_map.mp hs
      exact ⟨rfl, rfl⟩
    · cases hs

/-- Rows of the strategy frame at date `d` carrying a non-null metric —
the `date_data = df.filter(date).drop_nulls(metric)` of the signal
loops.  For a panel keyed uniquely by (date, symbol), as the PriceBar
data model guarantees, these rows are exactly the symbols with a valid
metric that day. -/
def validCount (strat : String) (panel : List PRow) (lb : ℕ) (d : Date) : ℕ :=
  if strat = "momentum" then
    ((momentumFrame panel lb).filter (fun x => decide (x.1.date = d) && x.2.isSome)).length
  else
    ((deviationFrame panel lb).filter (fun x => decide (x.1.date = d) && x.2.isSome)).length


/-- C8: whenever signal generation succeeds under a supported strategy,
every emitted signal is a BUY with weight `1 / top_k` (a SELL is never
emitted), and on each rebalance date the signals dated that day are
none at all when fewer than `top_k` frame rows carry a valid (non-null)
metric, and exactly `top_k` many otherwise. -/
theorem signals_per_rebalance_date (panel : List PRow) (strat freq : String) (k lb : ℕ)
    (sigs : List Signal) (rdates : List Date)
    (hstrat : strat = "momentum" ∨ strat = "mean_reversion")
    (hok : generateSignals panel strat freq k lb = Except.ok sigs)
    (hr : getRebalanceDates panel freq = Except.ok rdates) :
    (∀ s ∈ sigs, s.signal = "BUY" ∧ s.weight = 1 / (k : ℚ))
    ∧ ∀ d ∈ rdates,
        (validCount strat panel lb d < k →
          sigs.filter (fun s => decide (s.date = d)) = [])
        ∧ (k ≤ validCount strat panel lb d →
          (sigs.filter (fun s => decide (s.date = d))).length = k) := by
  have hq : qdiv 1 (k : ℚ) = 1 / (k : ℚ) := qdiv_eq 1 (k : ℚ)
  rcases hstrat with h | h <;> subst h
  · rw [generateSignals_momentum] at hok
    unfold momentumSignals at hok
    rw [hr] at hok
    injection hok with hok
    subst hok
    constructor
    · intro s hs
      obtain ⟨b, hb, hsb⟩ := List.mem_flatten.mp hs
      obtain ⟨e, _, rfl⟩ := List.mem_map.mp hb
      obtain ⟨h1, h2⟩ := (momentumEmit_props (momentumFrame panel lb) k e).2 s hsb
      exact ⟨h1, hq ▸ h2⟩
    · intro d hd
      rw [filter_flatten_batches (momentumEmit (momentumFrame panel lb) k)
        (fun e x hx => momentumEmit_date hx) rdates (getRebalanceDates_nodup hr) d hd]
      have hv : validCount "momentum" panel lb d =
          ((momentumFrame panel lb).filter
            (fun x => decide (x.1.date = d) && x.2.isSome)).length := by
        unfold validCount
        rw [if_pos rfl]
      rw [hv]
      exact (momentumEmit_props (momentumFrame panel lb) k d).1
  · rw [generateSignals_mean_reversion] at hok
    unfold meanReversionSignals at hok
    rw [hr] at hok
    injection hok with hok
    subst hok
    constructor
    · intro s hs
      obtain ⟨b, hb, hsb⟩ := List.mem_flatten.mp hs
      obtain ⟨e, _, rfl⟩ := List.mem_map.mp hb
      obtain ⟨h1, h2⟩ := (meanReversionEmit_props (deviationFrame panel lb) k e).2 s hsb
      exact ⟨h1, hq ▸ h2⟩
    · intro d hd
      rw [filter_flatten_batches (meanReversionEmit (deviationFrame panel lb) k)
        (fun e x hx => meanReversionEmit_date hx) rdates (getRebalanceDates_nodup hr) d hd]
      have hv : validCount "mean_reversion" panel lb d =
          ((deviationFrame panel lb).filter
            (fun x => decide (x.1.date = d) && x.2.isSome)).length := by
        unfold validCount
        rw [if_neg (by decide)]
      rw [hv]
      exact (meanReversionEmit_props (deviationFrame panel lb) k d).1

/-- One-row panel for the C8 witness. -/
def wPanelC8 : List PRow := [⟨⟨2023, 1, 2⟩, "A", 10⟩]

/-- Signals the momentum strategy emits on `wPanelC8` with daily
rebalancing, `top_k = 1` and `lookback = 0`. -/
def wSigsC8 : List Signal := [⟨⟨2023, 1, 2⟩, "A", "BUY", 1, 10⟩]

/-- Witness for C8 on a concrete momentum run. -/
theorem signals_per_rebalance_date_witness :
    generateSignals wPanelC8 "momentum" "daily" 1 0 = Except.ok wSigsC8
    ∧ getRebalanceDates wPanelC8 "daily" = Except.ok [⟨2023, 1, 2⟩]
    ∧ ((∀ s ∈ wSigsC8, s.signal = "BUY" ∧ s.weight = 1 / ((1 : ℕ) : ℚ))
      ∧ ∀ d ∈ [(⟨2023, 1, 2⟩ : Date)],
          (validCount "momentum" wPanelC8 0 d < 1 →
            wSigsC8.filter (fun s => decide (s.date = d)) = [])
          ∧ (1 ≤ validCount "momentum" wPanelC8 0 d →
            (wSigsC8.filter (fun s => decide (s.date = d))).length = 1)) :=
  ⟨rfl, rfl,
   signals_per_rebalance_date wPanelC8 "momentum" "daily" 1 0 wSigsC8 [⟨2023, 1, 2⟩]
     (Or.inl rfl) rfl rfl⟩


/-! Supporting lemmas for the simulator invariants. -/

theorem pytrunc_pos_facts (q : ℚ) (h : 0 < pytrunc q) :
    0 ≤ q ∧ ((pytrunc q : ℤ) : ℚ) ≤ q := by
  by_cases hq : 0 ≤ q
  · have he : pytrunc q = ⌊q⌋ := if_pos hq
    exact ⟨hq, by rw [he]; exact_mod_cast Int.floor_le q⟩
  · exfalso
    have he : pytrunc q = -⌊-q⌋ := if_neg hq
    have h0 : (0 : ℚ) ≤ -q := by linarith [not_le.mp hq]
    have : (0 : ℤ) ≤ ⌊-q⌋ := Int.floor_nonneg.mpr h0
    rw [he] at h
    omega

theorem buyStep_cash_nonneg (st : ℚ × List (String × ℤ) × List Trade) (sig : Signal)
    (hc : 0 ≤ st.1) (hw : sig.weight ≤ 1) : 0 ≤ (buyStep st sig).1 := by
  simp only [buyStep]
  split
  · rename_i hs
    show 0 ≤ qsub st.1 (qmul ((pytrunc (qdiv (qmul st.1 sig.weight) sig.price) : ℤ) : ℚ) sig.price)
    rw [qsub_eq, qmul_eq]
    rcases lt_trichotomy sig.price 0 with hp | hp | hp
    · have hnpos : (0 : ℚ) < ((pytrunc (qdiv (qmul st.1 sig.weight) sig.price) : ℤ) : ℚ) := by
        exact_mod_cast hs
      have : ((pytrunc (qdiv (qmul st.1 sig.weight) sig.price) : ℤ) : ℚ) * sig.price < 0 :=
        mul_neg_of_pos_of_neg hnpos hp
      linarith
    · exfalso
      rw [hp] at hs
      rw [qdiv_eq, div_zero] at hs
      have : pytrunc 0 = 0 := by decide
      omega
    · obtain ⟨hq0, hle⟩ := pytrunc_pos_facts _ hs
      have h1 : ((pytrunc (qdiv (qmul st.1 sig.weight) sig.price) : ℤ) : ℚ) * sig.price
          ≤ qdiv (qmul st.1 sig.weight) sig.price * sig.price :=
        mul_le_mul_of_nonneg_right hle (le_of_lt hp)
      have h2 : qdiv (qmul st.1 sig.weight) sig.price * sig.price = qmul st.1 sig.weight := by
        rw [qdiv_eq]
        exact div_mul_cancel₀ _ (ne_of_gt hp)
      have h3 : qmul st.1 sig.weight ≤ st.1 := by
        rw [qmul_eq]
        exact mul_le_of_le_one_right hc hw
      linarith
  · exact hc

theorem sellStep_cash_mono (d : Date) (daily : List PRow)
    (hcl : ∀ r ∈ daily, 0 ≤ r.close) (acc : ℚ × List Trade) (pos : String × ℤ)
    (hc : 0 ≤ acc.1) : 0 ≤ (sellStep d daily acc pos).1 := by
  unfold sellStep
  by_cases h2 : 0 < pos.2
  · rw [if_pos h2]
    cases hfind : daily.find? (fun r => decide (r.symbol = pos.1)) with
    | none => simpa using hc
    | some pr =>
      have hmem : pr ∈ daily := List.mem_of_find?_eq_some hfind
      have hcls : 0 ≤ pr.close := hcl pr hmem
      show 0 ≤ qadd acc.1 (qmul ((pos.2 : ℤ) : ℚ) pr.close)
      rw [qadd_eq, qmul_eq]
      have hp : (0 : ℚ) ≤ ((pos.2 : ℤ) : ℚ) := by exact_mod_cast le_of_lt h2
      have := mul_nonneg hp hcls
      linarith
  · rw [if_neg h2]
    exact hc

theorem sells_fold_cash_nonneg (d : Date) (daily : List PRow)
    (hcl : ∀ r ∈ daily, 0 ≤ r.close) :
    ∀ (poss : List (String × ℤ)) (acc : ℚ × List Trade), 0 ≤ acc.1 →
      0 ≤ (poss.foldl (sellStep d daily) acc).1 := by
  intro poss
  induction poss with
  | nil => intro acc hc; exact hc
  | cons p t ih =>
    intro acc hc
    rw [List.foldl_cons]
    exact ih _ (sellStep_cash_mono d daily hcl acc p hc)

theorem buys_fold_cash_nonneg :
    ∀ (sigs : List Signal) (st : ℚ × List (String × ℤ) × List Trade),
      (∀ s ∈ sigs, s.weight ≤ 1) → 0 ≤ st.1 → 0 ≤ (sigs.foldl buyStep st).1 := by
  intro sigs
  induction sigs with
  | nil => intro st _ hc; exact hc
  | cons sg t ih =>
    intro st hw hc
    rw [List.foldl_cons]
    exact ih _ (fun s hs => hw s (List.mem_cons_of_mem sg hs))
      (buyStep_cash_nonneg st sg hc (hw sg (List.mem_cons_self sg t)))

/-- Invariant carried through the simulation loop: non-negative cash and,
for every recorded portfolio row, non-negative cash and the value
identity. -/
def SimInv (st : SimState) : Prop :=
  0 ≤ st.cash ∧
    ∀ row ∈ st.history, 0 ≤ row.cash ∧ row.total_value = row.cash + row.positions_value

theorem simStep_inv (panel : List PRow) (signals : List Signal) (initial : ℚ)
    (hw : ∀ s ∈ signals, s.weight ≤ 1) (hcl : ∀ r ∈ panel, 0 ≤ r.close)
    (st : SimState) (d : Date) (hinv : SimInv st) :
    SimInv (simStep panel signals initial st d) := by
  obtain ⟨hc, hh⟩ := hinv
  simp only [simStep]
  set daily_prices := panel.filter (fun r => decide (r.date = d)) with hdp
  set daily_signals := signals.filter (fun sg => decide (sg.date = d)) with hds
  have hcl2 : ∀ r ∈ daily_prices, 0 ≤ r.close := by
    intro r hr
    exact hcl r (List.mem_of_mem_filter hr)
  set st1 := if daily_signals.isEmpty = true then st
    else
      let sold := st.positions.foldl (sellStep d daily_prices) (st.cash, st.trades)
      let bought := daily_signals.foldl buyStep (sold.1, [], sold.2)
      { st with cash := bought.1, positions := bought.2.1, trades := bought.2.2 } with hst1
  have h1 : 0 ≤ st1.cash ∧ st1.history = st.history := by
    rw [hst1]
    by_cases he : daily_signals.isEmpty = true
    · rw [if_pos he]
      exact ⟨hc, rfl⟩
    · rw [if_neg he]
      refine ⟨?_, rfl⟩
      apply buys_fold_cash_nonneg
      · intro s hs
        exact hw s (List.mem_of_mem_filter hs)
      · exact sells_fold_cash_nonneg d daily_prices hcl2 st.positions (st.cash, st.trades) hc
  constructor
  · exact h1.1
  · intro row hrow
    rw [List.mem_append] at hrow
    rcases hrow with hold | hnew
    · exact hh row (h1.2 ▸ hold)
    · rw [List.mem_singleton] at hnew
      subst hnew
      exact ⟨h1.1, qadd_eq _ _⟩

theorem simRun_inv (panel : List PRow) (signals : List Signal) (initial : ℚ)
    (hw : ∀ s ∈ signals, s.weight ≤ 1) (hcl : ∀ r ∈ panel, 0 ≤ r.close) :
    ∀ (dates : List Date) (st : SimState), SimInv st →
      SimInv (simRun panel signals initial st dates) := by
  intro dates
  induction dates with
  | nil => intro st h; exact h
  | cons d rest ih =>
    intro st h
    exact ih _ (simStep_inv panel signals initial hw hcl st d h)


/-- C4 (amended): for every price panel whose close prices are
non-negative, every signal list whose weights are at most 1 (as the
signal generator always produces), and every non-negative
initial capital, each portfolio row of the simulation has non-negative
cash and satisfies `total_value = cash + positions_value`. -/
theorem simulate_cash_nonneg_and_value_identity (panel : List PRow)
    (signals : List Signal) (initial : ℚ) (hcap : 0 ≤ initial)
    (hw : ∀ s ∈ signals, s.weight ≤ 1) (hcl : ∀ r ∈ panel, 0 ≤ r.close) :
    ∀ row ∈ (simulateTrading panel signals initial).1,
      0 ≤ row.cash ∧ row.total_value = row.cash + row.positions_value := by
  have h0 : SimInv { cash := initial, positions := [], history := [], trades := [] } :=
    ⟨hcap, by intro row hrow; cases hrow⟩
  have hfin := simRun_inv panel signals initial hw hcl (panelDates panel) _ h0
  intro row hrow
  exact hfin.2 row hrow

/-- One-row panel and its all-in BUY signal for the C4 witness. -/
def wPanelC4 : List PRow := [⟨⟨2023, 1, 2⟩, "A", 10⟩]

def wSigsC4 : List Signal := [⟨⟨2023, 1, 2⟩, "A", "BUY", 1, 10⟩]

/-- Witness for C4: concrete one-day, one-signal run. -/
theorem simulate_cash_nonneg_and_value_identity_witness :
    (0 : ℚ) ≤ 100
    ∧ (∀ s ∈ wSigsC4, s.weight ≤ 1)
    ∧ (∀ r ∈ wPanelC4, 0 ≤ r.close)
    ∧ ∀ row ∈ (simulateTrading wPanelC4 wSigsC4 100).1,
        0 ≤ row.cash ∧ row.total_value = row.cash + row.positions_value :=
  ⟨by norm_num, by decide, by decide,
   simulate_cash_nonneg_and_value_identity wPanelC4 wSigsC4 100 (by norm_num)
     (by decide) (by decide)⟩

/-- Two-day panel whose symbol A closes at −1 on the second day. -/
def cxPanelC4a : List PRow :=
  [⟨⟨2023, 1, 2⟩, "A", 1⟩, ⟨⟨2023, 1, 3⟩, "A", -1⟩, ⟨⟨2023, 1, 3⟩, "B", 1⟩]

/-- Signals buying all-in A on day one and B on day two. -/
def cxSignalsC4a : List Signal :=
  [⟨⟨2023, 1, 2⟩, "A", "BUY", 1, 1⟩, ⟨⟨2023, 1, 3⟩, "B", "BUY", 1, 1⟩]

/-- One-day panel for the overweight counterexample. -/
def cxPanelC4b : List PRow := [⟨⟨2023, 1, 2⟩, "A", 1⟩]

/-- Signal carrying weight 2, outside the (0, 1] range of the Signal
data model. -/
def cxSignalsC4b : List Signal := [⟨⟨2023, 1, 2⟩, "A", "BUY", 2, 1⟩]

/-- C4 counterexample: quantified over arbitrary price panels and signal
lists, the claim fails — liquidating at a negative close drives cash to
−100 on the second day of the first run, and a signal of weight 2 debits
200 from 100 of cash in the second run. -/
theorem simulate_cash_goes_negative_cx :
    (∃ row ∈ (simulateTrading cxPanelC4a cxSignalsC4a 100).1, row.cash < 0)
    ∧ (∃ row ∈ (simulateTrading cxPanelC4b cxSignalsC4b 100).1, row.cash < 0) :=
  ⟨by decide, by decide⟩

end Lianghua
